import Mathlib

/-!
Verification of the nested multi-engine supervisor ("Nested Context") of the
worker/deployer subsystem.  The repository ships the test suite
(worker/deployer/nested_test.go) for this component; the component itself
(`deployer.NewNestedContext`, `deployer.ContextConfig.Validate`,
`Context.DeployUnit`, `Context.RecallUnit`, `Context.Report`) is modelled
here from the specification, faithful to its words, with the observable
shapes (report keys, error messages) matching what the test suite checks.
-/

namespace Deployer

/-- Modelled from the spec: worker-slot lifecycle vocabulary
`state ∈ {Stopped, Starting, Running, Stopping}` (spec §3, worker slot). -/
inductive WorkerState where
  | stopped
  | starting
  | running
  | stopping
deriving DecidableEq, Repr

/-- Modelled from the spec: error values seen by the supervisor.  The
distinguished terminate-agent sentinel is "detectable by identity"
(spec §6), so it is a dedicated constructor; every other error is carried
as text. -/
inductive JError where
  | errTerminateAgent
  | other : String → JError
deriving DecidableEq, Repr

/-- Modelled from the spec: the per-manifold worker slot: current lifecycle
state, a start counter, and the manifold's declared input names (spec §3).
Restart timestamps are elided (the test suite ignores them). -/
structure ManifoldSlot where
  state : WorkerState
  startCount : Nat
  inputs : List String
deriving DecidableEq, Repr

/-- Modelled from the spec: an Engine holds a set of named manifolds with
their worker slots (spec §3). -/
structure Engine where
  manifolds : List (String × ManifoldSlot)
deriving DecidableEq, Repr

/-- Association-list lookup by string key (the Go maps keyed by name). -/
def alookup {β : Type} (name : String) : List (String × β) → Option β
  | [] => none
  | (k, v) :: rest => if k = name then some v else alookup name rest

/-- Remove every pair with the given key from an association list. -/
def eraseKey {β : Type} (name : String) : List (String × β) → List (String × β)
  | [] => []
  | (k, v) :: rest => if k = name then eraseKey name rest else (k, v) :: eraseKey name rest

/-- Remove every occurrence of a string from a list of strings. -/
def eraseName (name : String) : List String → List String
  | [] => []
  | s :: rest => if s = name then eraseName name rest else s :: eraseName name rest

/-- Modelled from the spec: building a fresh Engine from a manifold template
(name and inputs per manifold); every slot begins Stopped with a zero start
count (spec §4.1 construction, §4.3 DeployUnit). -/
def newEngine (template : List (String × List String)) : Engine :=
  { manifolds := template.map (fun p => (p.1, { state := .stopped, startCount := 0, inputs := p.2 })) }

/-- Modelled from the spec: a manifold is eligible to start when all of its
inputs are in state Running, or it declares no inputs (spec §4.1 (a)). -/
def inputsReady (e : Engine) (inputs : List String) : Bool :=
  inputs.all (fun i =>
    match alookup i e.manifolds with
    | some s => s.state == .running
    | none => false)

/-- Modelled from the spec: one pass of the Engine's resolution loop: every
manifold whose slot is Stopped and whose inputs are all Running is started,
transitioning its slot to Running and incrementing the start counter
(spec §4.1 (a), (c)). -/
def enginePass (e : Engine) : Engine :=
  { manifolds := e.manifolds.map (fun p =>
      if p.2.state == .stopped && inputsReady e p.2.inputs then
        (p.1, { p.2 with state := .running, startCount := p.2.startCount + 1 })
      else p) }

/-- Modelled from the spec: killing an Engine stops every worker and waits
for all to complete; afterwards every slot is Stopped (spec §4.1 Stopping). -/
def killEngine (e : Engine) : Engine :=
  { manifolds := e.manifolds.map (fun p => (p.1, { p.2 with state := WorkerState.stopped })) }

/-- Modelled from the spec: an Engine that has halted, together with the
error it reports as its own completion result (spec §4.1 fatal errors). -/
structure HaltedEngine where
  engine : Engine
  completion : JError
deriving DecidableEq, Repr

/-- Modelled from the spec: a worker completing with a fatal error halts its
Engine: all other worker slots receive a stop signal, the loop drains until
every slot reaches Stopped, and the Engine's own completion reports the
fatal error upward (spec §4.1 fatal/terminal error). -/
def engineFatalHalt (e : Engine) (err : JError) : HaltedEngine :=
  { engine := killEngine e, completion := err }

/-- Modelled from the spec: the overall lifecycle state an Engine exposes in
reports: Running when every slot runs, Stopped when every slot is stopped,
Starting otherwise. -/
def Engine.overallState (e : Engine) : WorkerState :=
  if e.manifolds.all (fun p => p.2.state == .running) then .running
  else if e.manifolds.all (fun p => p.2.state == .stopped) then .stopped
  else .starting

/-- Modelled from the spec: one deployed workload: its Engine handle and
start time (spec §3 Nested Context). -/
structure UnitAgent where
  engine : Engine
  started : Nat
deriving DecidableEq, Repr

/-- Modelled from the spec: the Nested Context configuration bundle; each
required collaborator may be absent (Go nil).  Field names follow the test
suite (`Agent`, `Clock`, `Logger`, `SetupLogging`, `UnitEngineConfig`,
`UnitManifolds`); the manifold-template field carries the template data the
model needs, the rest are presence-only collaborators (spec §4.3). -/
structure ContextConfig where
  agent : Option Unit
  clock : Option Unit
  logger : Option Unit
  setupLogging : Option Unit
  unitEngineConfig : Option Unit
  unitManifolds : Option (List (String × List String))
deriving DecidableEq, Repr

/-- Modelled from the spec: eager configuration validation: missing any
required field fails with a "missing `<field>` not valid" error
(spec §4.3 configuration validation; messages as in the test suite). -/
def ContextConfig.Validate (c : ContextConfig) : Except String Unit :=
  if c.agent.isNone then .error "missing Agent not valid"
  else if c.clock.isNone then .error "missing Clock not valid"
  else if c.logger.isNone then .error "missing Logger not valid"
  else if c.setupLogging.isNone then .error "missing SetupLogging not valid"
  else if c.unitEngineConfig.isNone then .error "missing UnitEngineConfig not valid"
  else if c.unitManifolds.isNone then .error "missing UnitManifolds not valid"
  else .ok ()

/-- Modelled from the spec: the Nested Context state: the manifold template
shared by all workloads, the in-memory map of workload name to unit agent,
the persisted ordered deployed-list (the agent's "deployed-units" value),
the bookkeeping list of workloads halted fatally, the on-disk unit agent
configuration files (name to contents), the context's own completion
result, and the current clock reading (spec §3, §4.3).  `badDisk` records
workload names whose external identity materialization would fail. -/
structure Context where
  template : List (String × List String)
  units : List (String × UnitAgent)
  deployedUnits : List String
  stoppedUnits : List String
  confFiles : List (String × String)
  completion : Option JError
  now : Nat
  badDisk : List String
deriving DecidableEq, Repr

/-- Modelled from the spec: a freshly constructed Nested Context with no
deployed workloads. -/
def Context.freshContext (template : List (String × List String)) : Context :=
  { template := template, units := [], deployedUnits := [], stoppedUnits := [],
    confFiles := [], completion := none, now := 0, badDisk := [] }

/-- Modelled from the spec: `NewNestedContext` validates the configuration
eagerly and, on success, returns a fresh context built around the manifold
template (spec §4.3). -/
def NewNestedContext (cfg : ContextConfig) : Except String Context :=
  match cfg.Validate with
  | .error e => .error e
  | .ok () => .ok (Context.freshContext (cfg.unitManifolds.getD []))

/-- Modelled from the spec: the contents materialized into a unit's agent
configuration file on deploy; the exact contents are delegated to external
collaborators, so the model records the supplied credential (spec §4.3
DeployUnit), giving a non-empty file. -/
def unitConf (name credential : String) : String :=
  "# unit agent " ++ name ++ "\npassword: " ++ credential

/-- Modelled from the spec: `DeployUnit(name, credential)`: a no-op success
when the name already has a live Engine; otherwise materializes the on-disk
identity state, builds a fresh Engine from the template, records the
workload in the in-memory map and appends its name to the persisted
deployed-list.  Fails with a setup error, recording nothing, when the
external materialization fails (spec §4.3 DeployUnit). -/
def deployUnit (ctx : Context) (name credential : String) : Except JError Context :=
  if (alookup name ctx.units).isSome then .ok ctx
  else if ctx.badDisk.contains name then .error (.other ("cannot deploy unit " ++ name))
  else .ok { ctx with
    confFiles := (name, unitConf name credential) :: eraseKey name ctx.confFiles,
    units := ctx.units ++ [(name, { engine := newEngine ctx.template, started := ctx.now })],
    deployedUnits := ctx.deployedUnits ++ [name] }

/-- Modelled from the spec: `RecallUnit(name)`: a no-op success when the
name is not tracked; otherwise kills the workload's Engine, waits for full
shutdown, removes its on-disk identity state, and removes it from the
in-memory map and the persisted deployed-list (spec §4.3 RecallUnit).  The
second component returns the recalled Engine's final (fully shut down)
state, `none` in the no-op case. -/
def recallUnit (ctx : Context) (name : String) : Except JError (Context × Option Engine) :=
  match alookup name ctx.units with
  | none => .ok (ctx, none)
  | some u => .ok
      ({ ctx with
        units := eraseKey name ctx.units,
        deployedUnits := eraseName name ctx.deployedUnits,
        stoppedUnits := eraseName name ctx.stoppedUnits,
        confFiles := eraseKey name ctx.confFiles },
      some (killEngine u.engine))

/-- Modelled from the spec: the Nested Context's reaction to a child
Engine's fatal halt.  For the terminate-agent sentinel: the halted workload
leaves the in-memory map, is marked stopped, every other workload is
halted, and the sentinel becomes the context's own completion result; the
persisted deployed-list is untouched.  For any other fatal error the
workload is only marked stopped, its last state kept visible
(spec §4.3 fatal propagation). -/
def onUnitEngineHalt (ctx : Context) (name : String) (h : HaltedEngine) : Context :=
  if h.completion = JError.errTerminateAgent then
    { ctx with
      units := (eraseKey name ctx.units).map (fun p => (p.1, { p.2 with engine := killEngine p.2.engine })),
      stoppedUnits := ctx.stoppedUnits ++ [name],
      completion := some h.completion }
  else
    { ctx with
      units := ctx.units.map (fun p =>
        if p.1 = name then (p.1, { p.2 with engine := h.engine }) else p),
      stoppedUnits := ctx.stoppedUnits ++ [name] }

/-- Modelled from the spec: end-to-end effect of a worker of the named
workload terminating with the given fatal error: the workload's own Engine
halts (all slots stop, the error becomes the Engine's completion), and the
Nested Context reacts to that halt (spec §4.1 fatal error, §4.3 fatal
propagation). -/
def unitWorkerExit (ctx : Context) (name : String) (err : JError) : Context :=
  match alookup name ctx.units with
  | none => ctx
  | some u => onUnitEngineHalt ctx name (engineFatalHalt u.engine err)

/-- Modelled from the spec: the structured snapshot type handed to the
report consumer: a nested mapping of string keys to primitive values and
nested mappings (spec §6).  Lifecycle states appear as their own leaf so
the vocabulary is visible in the report. -/
inductive RVal where
  | str : String → RVal
  | nat : Nat → RVal
  | strs : List String → RVal
  | state : WorkerState → RVal
  | map : List (String × RVal) → RVal

/-- Modelled from the spec: one manifold's entry in an Engine report:
`inputs`, `start-count` and `state` (spec §4.1 Report, §6 field names;
per-manifold timestamps are elided, the test suite ignores them). -/
def slotReport (s : ManifoldSlot) : RVal :=
  .map [("inputs", .strs s.inputs), ("start-count", .nat s.startCount), ("state", .state s.state)]

/-- Modelled from the spec: an Engine's report: each manifold's entry under
`manifolds`, plus the Engine's overall state (spec §4.1 Report). -/
def Engine.report (e : Engine) : RVal :=
  .map [("manifolds", .map (e.manifolds.map (fun p => (p.1, slotReport p.2)))),
    ("state", .state e.overallState)]

/-- Modelled from the spec: one workload's entry in the Nested Context
report: the embedded Engine report, the workload's start time, and its
state (spec §4.3 Report, §6 field names). -/
def unitReport (u : UnitAgent) : RVal :=
  .map [("report", u.engine.report), ("started", .nat u.started),
    ("state", .state u.engine.overallState)]

/-- Modelled from the spec: the Nested Context's aggregated report: the
`deployed` list in deployment order, the `stopped` list present only when
non-empty, and the per-workload reports under `units`/`workers`
(spec §4.3 Report, §6 field names). -/
def contextReport (ctx : Context) : RVal :=
  .map (("deployed", .strs ctx.deployedUnits) ::
    ((if ctx.stoppedUnits.isEmpty then [] else [("stopped", RVal.strs ctx.stoppedUnits)]) ++
    [("units", .map [("workers", .map (ctx.units.map (fun p => (p.1, unitReport p.2))))])]))

/-- Whether a top-level key occurs in a report mapping. -/
def hasKey (k : String) : RVal → Bool
  | .map kvs => kvs.any (fun p => p.1 == k)
  | _ => false

/-- The value at a top-level key of a report mapping. -/
def getKey (k : String) : RVal → Option RVal
  | .map kvs => alookup k kvs
  | _ => none

mutual

/-- All lifecycle-state leaves occurring anywhere in a report value. -/
def statesIn : RVal → List WorkerState
  | .state s => [s]
  | .map kvs => statesInList kvs
  | _ => []

/-- All lifecycle-state leaves in a list of report entries. -/
def statesInList : List (String × RVal) → List WorkerState
  | [] => []
  | p :: rest => statesIn p.2 ++ statesInList rest

end

/-- Modelled from the spec: one asynchronous scheduling step: the named
workload's Engine performs one pass of its resolution loop; child Engines
evolve fully concurrently and independently of the Nested Context loop
(spec §5). -/
def stepUnitEngine (ctx : Context) (name : String) : Context :=
  { ctx with units := ctx.units.map (fun p =>
      if p.1 = name then (p.1, { p.2 with engine := enginePass p.2.engine }) else p) }

/-- Modelled from the spec: an arbitrary interleaving of engine resolution
steps across workloads, standing for the unconstrained relative completion
timing of the child Engines (spec §5). -/
def runSchedule (ctx : Context) (sched : List String) : Context :=
  sched.foldl stepUnitEngine ctx

/-! Helper lemmas about the association-list primitives and the model. -/

theorem alookup_eraseKey {β : Type} (name : String) (l : List (String × β)) :
    alookup name (eraseKey name l) = none := by
  induction l with
  | nil => rfl
  | cons p rest ih =>
    obtain ⟨k, v⟩ := p
    by_cases h : k = name
    · simp [eraseKey, h, ih]
    · simp [eraseKey, alookup, h, ih]

theorem not_mem_eraseName (name : String) (l : List String) :
    name ∉ eraseName name l := by
  induction l with
  | nil => simp [eraseName]
  | cons s rest ih =>
    by_cases h : s = name
    · simp [eraseName, h, ih]
    · simp [eraseName, h, ih]
      exact fun hc => h hc.symm

theorem alookup_append_right {β : Type} (name : String) (l : List (String × β)) (v : β)
    (h : alookup name l = none) :
    alookup name (l ++ [(name, v)]) = some v := by
  induction l with
  | nil => simp [alookup]
  | cons p rest ih =>
    obtain ⟨k, w⟩ := p
    by_cases hk : k = name
    · simp [alookup, hk] at h
    · simp [alookup, hk] at h ⊢
      exact ih h

theorem alookup_map_none {β γ : Type} (name : String) (f : String × β → γ)
    (l : List (String × β)) (h : alookup name l = none) :
    alookup name (l.map (fun p => (p.1, f p))) = none := by
  induction l with
  | nil => rfl
  | cons p rest ih =>
    obtain ⟨k, w⟩ := p
    by_cases hk : k = name
    · simp [alookup, hk] at h
    · simp [alookup, hk] at h ⊢
      exact ih h

theorem killEngine_stopped (e : Engine) :
    ∀ p ∈ (killEngine e).manifolds, p.2.state = WorkerState.stopped := by
  intro p hp
  simp only [killEngine, List.mem_map] at hp
  obtain ⟨q, _, rfl⟩ := hp
  rfl

theorem mem_statesInList {kvs : List (String × RVal)} {q : String × RVal}
    (hq : q ∈ kvs) {s : WorkerState} (hs : s ∈ statesIn q.2) :
    s ∈ statesInList kvs := by
  induction kvs with
  | nil => cases hq
  | cons p rest ih =>
    cases hq with
    | head =>
      simp [statesInList]
      exact Or.inl hs
    | tail _ hq =>
      simp [statesInList]
      exact Or.inr (ih hq)

theorem stepUnitEngine_deployedUnits (ctx : Context) (name : String) :
    (stepUnitEngine ctx name).deployedUnits = ctx.deployedUnits := rfl

theorem runSchedule_deployedUnits (sched : List String) (ctx : Context) :
    (runSchedule ctx sched).deployedUnits = ctx.deployedUnits := by
  induction sched generalizing ctx with
  | nil => rfl
  | cons s rest ih => exact ih (stepUnitEngine ctx s)

theorem getKey_deployed (ctx : Context) :
    getKey "deployed" (contextReport ctx) = some (RVal.strs ctx.deployedUnits) := by
  simp [getKey, contextReport, alookup]

/-! Claim theorems. -/

/-- Claim C7: validation of the Nested Context configuration succeeds
exactly when every required field is present, and a missing field fails
eagerly with the message "missing <FieldName> not valid" for the first
missing field (in the order Agent, Clock, Logger, SetupLogging,
UnitEngineConfig, UnitManifolds). -/
theorem validate_requires_all_fields (c : ContextConfig) :
    (c.Validate = Except.ok () ↔
      (c.agent.isSome ∧ c.clock.isSome ∧ c.logger.isSome ∧ c.setupLogging.isSome ∧
        c.unitEngineConfig.isSome ∧ c.unitManifolds.isSome)) ∧
    (c.agent = none → c.Validate = Except.error "missing Agent not valid") ∧
    (c.agent.isSome → c.clock = none →
      c.Validate = Except.error "missing Clock not valid") ∧
    (c.agent.isSome → c.clock.isSome → c.logger = none →
      c.Validate = Except.error "missing Logger not valid") ∧
    (c.agent.isSome → c.clock.isSome → c.logger.isSome → c.setupLogging = none →
      c.Validate = Except.error "missing SetupLogging not valid") ∧
    (c.agent.isSome → c.clock.isSome → c.logger.isSome → c.setupLogging.isSome →
      c.unitEngineConfig = none →
      c.Validate = Except.error "missing UnitEngineConfig not valid") ∧
    (c.agent.isSome → c.clock.isSome → c.logger.isSome → c.setupLogging.isSome →
      c.unitEngineConfig.isSome → c.unitManifolds = none →
      c.Validate = Except.error "missing UnitManifolds not valid") := by
  obtain ⟨a, cl, lg, sl, uec, um⟩ := c
  cases a <;> cases cl <;> cases lg <;> cases sl <;> cases uec <;> cases um <;>
    simp [ContextConfig.Validate]

/-- Witness for C7: a configuration missing only its Agent field fails
validation with exactly the expected message, and a complete configuration
validates. -/
theorem validate_requires_all_fields_witness :
    ContextConfig.Validate
        { agent := none, clock := some (), logger := some (), setupLogging := some (),
          unitEngineConfig := some (), unitManifolds := some [] } =
      Except.error "missing Agent not valid" ∧
    ContextConfig.Validate
        { agent := some (), clock := some (), logger := some (), setupLogging := some (),
          unitEngineConfig := some (), unitManifolds := some [] } = Except.ok () := by
  refine ⟨(validate_requires_all_fields _).2.1 rfl, ?_⟩
  exact (validate_requires_all_fields
    { agent := some (), clock := some (), logger := some (), setupLogging := some (),
      unitEngineConfig := some (), unitManifolds := some [] }).1.mpr
    (by simp)

/-- Claim C9: the report of a freshly constructed Nested Context with no
deployed workloads is exactly the mapping with an empty `deployed` list and
an empty `units`/`workers` mapping and no `stopped` key; in general the
`stopped` key is present exactly when the bookkeeping list of fatally
halted workloads is non-empty, and that list is empty at construction. -/
theorem report_stopped_key_only_after_halt (tmpl : List (String × List String))
    (ctx : Context) :
    contextReport (Context.freshContext tmpl) =
      RVal.map [("deployed", RVal.strs []),
        ("units", RVal.map [("workers", RVal.map [])])] ∧
    (hasKey "stopped" (contextReport ctx) = true ↔ ctx.stoppedUnits ≠ []) ∧
    (Context.freshContext tmpl).stoppedUnits = [] := by
  refine ⟨rfl, ?_, rfl⟩
  rcases h : ctx.stoppedUnits with _ | ⟨s, rest⟩ <;>
    simp [contextReport, hasKey, h]

/-- Witness for C9: the fresh-context instantiation of the report-shape
statement. -/
theorem report_stopped_key_only_after_halt_witness :
    contextReport (Context.freshContext []) =
      RVal.map [("deployed", RVal.strs []),
        ("units", RVal.map [("workers", RVal.map [])])] ∧
    (hasKey "stopped" (contextReport (Context.freshContext [])) = true ↔
      (Context.freshContext []).stoppedUnits ≠ []) ∧
    (Context.freshContext []).stoppedUnits = [] :=
  report_stopped_key_only_after_halt [] (Context.freshContext [])

/-- Claim C4: RecallUnit is idempotent: recalling a name that is not
tracked succeeds and changes no state, and recalling any name twice in a
row succeeds both times. -/
theorem recall_unit_idempotent (ctx : Context) (name : String)
    (habs : alookup name ctx.units = none) :
    recallUnit ctx name = Except.ok (ctx, none) ∧
    ∀ ctx2 : Context, ∃ p, recallUnit ctx2 name = Except.ok p ∧
      ∃ q, recallUnit p.1 name = Except.ok q := by
  constructor
  · simp [recallUnit, habs]
  · intro ctx2
    rcases h2 : alookup name ctx2.units with _ | u
    · exact ⟨(ctx2, none), by simp [recallUnit, h2], (ctx2, none), by simp [recallUnit, h2]⟩
    · refine ⟨({ ctx2 with
          units := eraseKey name ctx2.units,
          deployedUnits := eraseName name ctx2.deployedUnits,
          stoppedUnits := eraseName name ctx2.stoppedUnits,
          confFiles := eraseKey name ctx2.confFiles }, some (killEngine u.engine)),
        by simp [recallUnit, h2], ?_⟩
      have herased : alookup name (eraseKey name ctx2.units) = none :=
        alookup_eraseKey name ctx2.units
      refine ⟨({ ctx2 with
          units := eraseKey name ctx2.units,
          deployedUnits := eraseName name ctx2.deployedUnits,
          stoppedUnits := eraseName name ctx2.stoppedUnits,
          confFiles := eraseKey name ctx2.confFiles }, none), ?_⟩
      simp [recallUnit, herased]

/-- Witness for C4: recalling an untracked name on a fresh context is a
no-op success. -/
theorem recall_unit_idempotent_witness :
    recallUnit (Context.freshContext []) "something/0" =
      Except.ok (Context.freshContext [], none) :=
  (recall_unit_idempotent (Context.freshContext []) "something/0" rfl).1

/-- Claim C5: DeployUnit is idempotent on creation: deploying a name that
already has a live Engine returns success and leaves the context exactly
unchanged — no second Engine, same in-memory map, same persisted
deployed-list. -/
theorem deploy_unit_idempotent (ctx : Context) (name credential : String)
    (u : UnitAgent) (h : alookup name ctx.units = some u) :
    deployUnit ctx name credential = Except.ok ctx := by
  simp [deployUnit, h]

/-- Witness for C5: redeploying the sole deployed unit of a concrete
context returns that context unchanged. -/
theorem deploy_unit_idempotent_witness :
    deployUnit
        { Context.freshContext [] with
          units := [("something/0", { engine := newEngine [], started := 0 })],
          deployedUnits := ["something/0"] }
        "something/0" "password" =
      Except.ok
        { Context.freshContext [] with
          units := [("something/0", { engine := newEngine [], started := 0 })],
          deployedUnits := ["something/0"] } :=
  deploy_unit_idempotent _ "something/0" "password"
    { engine := newEngine [], started := 0 } (by simp [alookup])

/-- Claim C3: a successful DeployUnit of a not-yet-deployed name
materializes the unit's on-disk identity state (its agent configuration
file exists and is non-empty), records the workload in the in-memory map,
and appends its name to the persisted deployed-list, which therefore
contains the name. -/
theorem deploy_unit_materializes (ctx : Context) (name credential : String)
    (ctx2 : Context) (habs : alookup name ctx.units = none)
    (hok : deployUnit ctx name credential = Except.ok ctx2) :
    alookup name ctx2.confFiles = some (unitConf name credential) ∧
    0 < (unitConf name credential).length ∧
    (alookup name ctx2.units).isSome = true ∧
    ctx2.deployedUnits = ctx.deployedUnits ++ [name] ∧
    name ∈ ctx2.deployedUnits := by
  rw [deployUnit, habs] at hok
  simp only [Option.isSome_none, Bool.false_eq_true, if_false] at hok
  by_cases hbad : ctx.badDisk.contains name
  · rw [if_pos hbad] at hok
    cases hok
  · rw [if_neg hbad] at hok
    cases hok
    refine ⟨by simp [alookup], ?_, ?_, rfl, by simp⟩
    · simp [unitConf, String.length_append]
      exact Or.inl (Or.inl (Or.inl (by decide)))
    · rw [alookup_append_right name ctx.units _ habs]
      rfl

/-- Witness for C3: deploying "something/0" on a fresh context yields the
materialized configuration file, the in-memory entry, and the persisted
name. -/
theorem deploy_unit_materializes_witness :
    alookup "something/0"
        (Context.confFiles
          { Context.freshContext [] with
            units := [("something/0", { engine := newEngine [], started := 0 })],
            deployedUnits := ["something/0"],
            confFiles := [("something/0", unitConf "something/0" "password")] }) =
      some (unitConf "something/0" "password") ∧
    0 < (unitConf "something/0" "password").length ∧
    (alookup "something/0"
        (Context.units
          { Context.freshContext [] with
            units := [("something/0", { engine := newEngine [], started := 0 })],
            deployedUnits := ["something/0"],
            confFiles := [("something/0", unitConf "something/0" "password")] })).isSome = true ∧
    Context.deployedUnits
        { Context.freshContext [] with
          units := [("something/0", { engine := newEngine [], started := 0 })],
          deployedUnits := ["something/0"],
          confFiles := [("something/0", unitConf "something/0" "password")] } =
      (Context.freshContext []).deployedUnits ++ ["something/0"] ∧
    "something/0" ∈ Context.deployedUnits
        { Context.freshContext [] with
          units := [("something/0", { engine := newEngine [], started := 0 })],
          deployedUnits := ["something/0"],
          confFiles := [("something/0", unitConf "something/0" "password")] } :=
  deploy_unit_materializes (Context.freshContext []) "something/0" "password" _ rfl rfl

/-- Claim C2: RecallUnit of a tracked name succeeds, having killed the
workload's Engine and waited for full shutdown (every slot of the recalled
Engine's final state is Stopped), removed the on-disk identity state,
removed the name from the in-memory map, and removed it from the persisted
deployed-list. -/
theorem recall_unit_removes (ctx : Context) (name : String) (u : UnitAgent)
    (h : alookup name ctx.units = some u) :
    ∃ ctx2, recallUnit ctx name = Except.ok (ctx2, some (killEngine u.engine)) ∧
      (∀ p ∈ (killEngine u.engine).manifolds, p.2.state = WorkerState.stopped) ∧
      alookup name ctx2.units = none ∧
      name ∉ ctx2.deployedUnits ∧
      alookup name ctx2.confFiles = none := by
  refine ⟨{ ctx with
      units := eraseKey name ctx.units,
      deployedUnits := eraseName name ctx.deployedUnits,
      stoppedUnits := eraseName name ctx.stoppedUnits,
      confFiles := eraseKey name ctx.confFiles }, ?_, killEngine_stopped u.engine, ?_, ?_, ?_⟩
  · simp [recallUnit, h]
  · exact alookup_eraseKey name ctx.units
  · exact not_mem_eraseName name ctx.deployedUnits
  · exact alookup_eraseKey name ctx.confFiles

/-- Witness for C2: recalling the sole deployed unit of a concrete context
fully removes it and returns the shut-down Engine. -/
theorem recall_unit_removes_witness :
    ∃ ctx2, recallUnit
        { Context.freshContext [] with
          units := [("something/0", { engine := newEngine [("worker", [])], started := 0 })],
          deployedUnits := ["something/0"],
          confFiles := [("something/0", unitConf "something/0" "password")] }
        "something/0" =
      Except.ok (ctx2,
        some (killEngine (newEngine [("worker", [])]))) ∧
      (∀ p ∈ (killEngine (newEngine [("worker", [])])).manifolds,
        p.2.state = WorkerState.stopped) ∧
      alookup "something/0" ctx2.units = none ∧
      "something/0" ∉ ctx2.deployedUnits ∧
      alookup "something/0" ctx2.confFiles = none :=
  recall_unit_removes _ "something/0"
    { engine := newEngine [("worker", [])], started := 0 } (by simp [alookup])

/-- Claim C1: when a worker of a deployed workload terminates with the
terminate-agent sentinel, (a) the workload's Engine halts with every slot
Stopped and the sentinel as the Engine's completion, (b) a subsequent
Report lists the workload under `stopped` while it remains listed under
`deployed`, and (c) the Nested Context's own completion result is the
sentinel. -/
theorem sentinel_terminates_context (ctx : Context) (name : String) (u : UnitAgent)
    (hu : alookup name ctx.units = some u) (hd : name ∈ ctx.deployedUnits) :
    (∀ p ∈ (engineFatalHalt u.engine JError.errTerminateAgent).engine.manifolds,
      p.2.state = WorkerState.stopped) ∧
    (engineFatalHalt u.engine JError.errTerminateAgent).completion =
      JError.errTerminateAgent ∧
    getKey "stopped" (contextReport (unitWorkerExit ctx name JError.errTerminateAgent)) =
      some (RVal.strs (ctx.stoppedUnits ++ [name])) ∧
    name ∈ ctx.stoppedUnits ++ [name] ∧
    getKey "deployed" (contextReport (unitWorkerExit ctx name JError.errTerminateAgent)) =
      some (RVal.strs ctx.deployedUnits) ∧
    name ∈ ctx.deployedUnits ∧
    (unitWorkerExit ctx name JError.errTerminateAgent).completion =
      some JError.errTerminateAgent := by
  have hctx2 : unitWorkerExit ctx name JError.errTerminateAgent =
      { ctx with
        units := (eraseKey name ctx.units).map
          (fun p => (p.1, { p.2 with engine := killEngine p.2.engine })),
        stoppedUnits := ctx.stoppedUnits ++ [name],
        completion := some JError.errTerminateAgent } := by
    simp [unitWorkerExit, hu, onUnitEngineHalt, engineFatalHalt]
  have hne : (ctx.stoppedUnits ++ [name]).isEmpty = false := by
    cases ctx.stoppedUnits <;> simp [List.isEmpty]
  refine ⟨killEngine_stopped u.engine, rfl, ?_, by simp, ?_, hd, ?_⟩
  · rw [hctx2]
    simp [contextReport, getKey, hne, alookup]
  · rw [hctx2, getKey_deployed]
  · rw [hctx2]

/-- Witness for C1: a concrete context with one deployed workload whose
worker returns the sentinel. -/
theorem sentinel_terminates_context_witness :
    (∀ p ∈ (engineFatalHalt (newEngine [("worker", [])])
        JError.errTerminateAgent).engine.manifolds,
      p.2.state = WorkerState.stopped) ∧
    (engineFatalHalt (newEngine [("worker", [])]) JError.errTerminateAgent).completion =
      JError.errTerminateAgent ∧
    getKey "stopped" (contextReport (unitWorkerExit
        { Context.freshContext [("worker", [])] with
          units := [("something/0",
            { engine := newEngine [("worker", [])], started := 0 })],
          deployedUnits := ["something/0"] }
        "something/0" JError.errTerminateAgent)) =
      some (RVal.strs ([] ++ ["something/0"])) ∧
    "something/0" ∈ ([] : List String) ++ ["something/0"] ∧
    getKey "deployed" (contextReport (unitWorkerExit
        { Context.freshContext [("worker", [])] with
          units := [("something/0",
            { engine := newEngine [("worker", [])], started := 0 })],
          deployedUnits := ["something/0"] }
        "something/0" JError.errTerminateAgent)) =
      some (RVal.strs ["something/0"]) ∧
    "something/0" ∈ ["something/0"] ∧
    (unitWorkerExit
        { Context.freshContext [("worker", [])] with
          units := [("something/0",
            { engine := newEngine [("worker", [])], started := 0 })],
          deployedUnits := ["something/0"] }
        "something/0" JError.errTerminateAgent).completion =
      some JError.errTerminateAgent :=
  sentinel_terminates_context _ "something/0"
    { engine := newEngine [("worker", [])], started := 0 }
    (by simp [alookup]) (by simp)

/-- Claim C10: after a workload halts on the terminate-agent sentinel, the
report's `units`/`workers` mapping no longer contains an entry for that
workload, even though its name still appears under both `deployed` and
`stopped`. -/
theorem sentinel_drops_worker_entry (ctx : Context) (name : String) (u : UnitAgent)
    (hu : alookup name ctx.units = some u) (hd : name ∈ ctx.deployedUnits) :
    ∃ w, getKey "units" (contextReport (unitWorkerExit ctx name JError.errTerminateAgent)) =
        some (RVal.map [("workers", RVal.map w)]) ∧
      alookup name w = none ∧
      name ∈ (unitWorkerExit ctx name JError.errTerminateAgent).deployedUnits ∧
      name ∈ (unitWorkerExit ctx name JError.errTerminateAgent).stoppedUnits := by
  have hctx2 : unitWorkerExit ctx name JError.errTerminateAgent =
      { ctx with
        units := (eraseKey name ctx.units).map
          (fun p => (p.1, { p.2 with engine := killEngine p.2.engine })),
        stoppedUnits := ctx.stoppedUnits ++ [name],
        completion := some JError.errTerminateAgent } := by
    simp [unitWorkerExit, hu, onUnitEngineHalt, engineFatalHalt]
  have hne : (ctx.stoppedUnits ++ [name]).isEmpty = false := by
    cases ctx.stoppedUnits <;> simp [List.isEmpty]
  refine ⟨((eraseKey name ctx.units).map
      (fun p => (p.1, { p.2 with engine := killEngine p.2.engine }))).map
      (fun p => (p.1, unitReport p.2)), ?_, ?_, ?_, ?_⟩
  · rw [hctx2]
    simp [contextReport, getKey, hne, alookup]
  · exact alookup_map_none name _ _
      (alookup_map_none name _ _ (alookup_eraseKey name ctx.units))
  · rw [hctx2]
    exact hd
  · rw [hctx2]
    simp

/-- Witness for C10: the concrete single-workload context: after the
sentinel, the workers mapping is empty while the name stays deployed and
stopped. -/
theorem sentinel_drops_worker_entry_witness :
    ∃ w, getKey "units" (contextReport (unitWorkerExit
        { Context.freshContext [("worker", [])] with
          units := [("something/0",
            { engine := newEngine [("worker", [])], started := 0 })],
          deployedUnits := ["something/0"] }
        "something/0" JError.errTerminateAgent)) =
        some (RVal.map [("workers", RVal.map w)]) ∧
      alookup "something/0" w = none ∧
      "something/0" ∈ (unitWorkerExit
        { Context.freshContext [("worker", [])] with
          units := [("something/0",
            { engine := newEngine [("worker", [])], started := 0 })],
          deployedUnits := ["something/0"] }
        "something/0" JError.errTerminateAgent).deployedUnits ∧
      "something/0" ∈ (unitWorkerExit
        { Context.freshContext [("worker", [])] with
          units := [("something/0",
            { engine := newEngine [("worker", [])], started := 0 })],
          deployedUnits := ["something/0"] }
        "something/0" JError.errTerminateAgent).stoppedUnits :=
  sentinel_drops_worker_entry _ "something/0"
    { engine := newEngine [("worker", [])], started := 0 }
    (by simp [alookup]) (by simp)

/-- Claim C6: after deploying "first/0", "second/0" and "third/0" in that
order, Report's `deployed` entry equals exactly that list, in deployment
order, regardless of the relative completion timing of the workloads'
internal Engines (any interleaving of engine resolution steps). -/
theorem report_deployed_in_order (tmpl : List (String × List String))
    (sched : List String) :
    ∃ c1 c2 c3,
      deployUnit (Context.freshContext tmpl) "first/0" "password" = Except.ok c1 ∧
      deployUnit c1 "second/0" "password" = Except.ok c2 ∧
      deployUnit c2 "third/0" "password" = Except.ok c3 ∧
      getKey "deployed" (contextReport (runSchedule c3 sched)) =
        some (RVal.strs ["first/0", "second/0", "third/0"]) := by
  refine ⟨{ template := tmpl,
            units := [("first/0", { engine := newEngine tmpl, started := 0 })],
            deployedUnits := ["first/0"], stoppedUnits := [],
            confFiles := [("first/0", unitConf "first/0" "password")],
            completion := none, now := 0, badDisk := [] },
    { template := tmpl,
      units := [("first/0", { engine := newEngine tmpl, started := 0 }),
          ("second/0", { engine := newEngine tmpl, started := 0 })],
      deployedUnits := ["first/0", "second/0"], stoppedUnits := [],
      confFiles := [("second/0", unitConf "second/0" "password"),
          ("first/0", unitConf "first/0" "password")],
      completion := none, now := 0, badDisk := [] },
    { template := tmpl,
      units := [("first/0", { engine := newEngine tmpl, started := 0 }),
          ("second/0", { engine := newEngine tmpl, started := 0 }),
          ("third/0", { engine := newEngine tmpl, started := 0 })],
      deployedUnits := ["first/0", "second/0", "third/0"], stoppedUnits := [],
      confFiles := [("third/0", unitConf "third/0" "password"),
          ("second/0", unitConf "second/0" "password"),
          ("first/0", unitConf "first/0" "password")],
      completion := none, now := 0, badDisk := [] }, ?_, ?_, ?_, ?_⟩
  · simp [deployUnit, alookup, Context.freshContext, eraseKey]
  · simp [deployUnit, alookup, eraseKey]
  · simp [deployUnit, alookup, eraseKey]
  · rw [getKey_deployed, runSchedule_deployedUnits]

/-- Witness for C6: the concrete instantiation with the test suite's
single-manifold template and one resolution step for "first/0". -/
theorem report_deployed_in_order_witness :
    ∃ c1 c2 c3,
      deployUnit (Context.freshContext [("worker", [])]) "first/0" "password" =
        Except.ok c1 ∧
      deployUnit c1 "second/0" "password" = Except.ok c2 ∧
      deployUnit c2 "third/0" "password" = Except.ok c3 ∧
      getKey "deployed" (contextReport (runSchedule c3 ["first/0"])) =
        some (RVal.strs ["first/0", "second/0", "third/0"]) :=
  report_deployed_in_order [("worker", [])] ["first/0"]

/-- Claim C8: every lifecycle-state leaf in a Report snapshot is drawn from
the vocabulary {Stopped, Starting, Running, Stopping}, and a Stopped
manifold whose inputs are all ready is started by the resolution pass,
after which it reports the Running state. -/
theorem report_state_vocabulary (ctx : Context) (e : Engine)
    (mp : String × ManifoldSlot) (hmem : mp ∈ e.manifolds)
    (hstopped : mp.2.state = WorkerState.stopped)
    (hready : inputsReady e mp.2.inputs = true) :
    (∀ s ∈ statesIn (contextReport ctx),
      s = WorkerState.stopped ∨ s = WorkerState.starting ∨
      s = WorkerState.running ∨ s = WorkerState.stopping) ∧
    (mp.1, { mp.2 with state := WorkerState.running, startCount := mp.2.startCount + 1 })
      ∈ (enginePass e).manifolds ∧
    WorkerState.running ∈ statesIn (Engine.report (enginePass e)) := by
  have hstart :
      (mp.1, { mp.2 with state := WorkerState.running, startCount := mp.2.startCount + 1 }) ∈
        (enginePass e).manifolds := by
    simp only [enginePass]
    exact List.mem_map.mpr ⟨mp, hmem, by simp [hstopped, hready]⟩
  refine ⟨?_, hstart, ?_⟩
  · intro s _
    cases s
    · exact Or.inl rfl
    · exact Or.inr (Or.inl rfl)
    · exact Or.inr (Or.inr (Or.inl rfl))
    · exact Or.inr (Or.inr (Or.inr rfl))
  · have hq := List.mem_map_of_mem (fun p => (p.1, slotReport p.2)) hstart
    have hs : WorkerState.running ∈
        statesIn (slotReport
          { mp.2 with state := WorkerState.running, startCount := mp.2.startCount + 1 }) := by
      simp [slotReport, statesIn, statesInList]
    have hmem2 := mem_statesInList hq hs
    simp [Engine.report, statesIn, statesInList]
    exact Or.inl hmem2

/-- Witness for C8: the one-manifold engine of the test suite's unit
workload: its "worker" manifold is Stopped with no inputs, so the pass
starts it and the engine report shows Running. -/
theorem report_state_vocabulary_witness :
    (∀ s ∈ statesIn (contextReport (Context.freshContext [])),
      s = WorkerState.stopped ∨ s = WorkerState.starting ∨
      s = WorkerState.running ∨ s = WorkerState.stopping) ∧
    ("worker", ({ state := WorkerState.running, startCount := 1, inputs := [] } : ManifoldSlot))
      ∈ (enginePass (newEngine [("worker", [])])).manifolds ∧
    WorkerState.running ∈ statesIn (Engine.report (enginePass (newEngine [("worker", [])]))) :=
  report_state_vocabulary (Context.freshContext []) (newEngine [("worker", [])])
    ("worker", { state := WorkerState.stopped, startCount := 0, inputs := [] })
    (by simp [newEngine]) rfl rfl

end Deployer
